import Mathlib

/-!
Verification of the thumbworx dispatch engine (src/app.py).

The Python source keeps three module-level stores (`drivers`, `deliveries`,
`geofences`) and a road graph `G`, and exposes helper functions
`suggest_route`, `assign_driver`, `cluster_deliveries`, `check_geofence`
plus the endpoints `add_delivery` and `assign_all`.  Below each of these is
shallowly embedded: coordinates and distances are rationals, external
library functions (the `haversine` package, osmnx nearest-node distance,
sklearn KMeans label assignment) enter as explicit function parameters or
as models of their documented behaviour, and Python exceptions are
modelled with `Option`/`Except` or explicit error flags.  Logging and map
plotting are pure observation and are not modelled.
-/

set_option allowUnsafeReducibility true in
attribute [semireducible] Rat.mul Rat.add Rat.sub Rat.neg Rat.div Rat.inv Rat.ofScientific

namespace Thumbworx

/-- A driver record, as in the module-level `drivers` list of app.py,
with keys id, imei, driver, lat, lon and current_load. -/
structure Driver where
  id : Nat
  imei : String
  driver : String
  lat : ℚ
  lon : ℚ
  current_load : ℕ
  deriving Repr, DecidableEq

/-- A delivery record, as created by `add_delivery` in app.py, with keys
id, lat, lon, address and assigned_driver, plus the `eta_min` and
`route_coords` keys that `assign_all` adds after assignment.  The
`requested_time` field is an opaque timestamp and is not modelled. -/
structure Delivery where
  id : Nat
  lat : ℚ
  lon : ℚ
  address : String
  assigned_driver : Option Nat
  eta_min : Option ℚ
  route_coords : Option (List (ℚ × ℚ))
  deriving Repr, DecidableEq

/-- A geofence record, with keys id, name, and a polygon given as a list
of latitude-longitude vertices. -/
structure Geofence where
  id : Nat
  name : String
  polygon : List (ℚ × ℚ)
  deriving Repr, DecidableEq

/-- Python truthiness of `d["assigned_driver"]` (None or an int id):
`if d['assigned_driver']:` is taken iff the value is a non-zero int. -/
def truthyNat : Option Nat → Bool
  | none => false
  | some n => n ≠ 0

/-- Python truthiness of the result of `check_geofence` (None or a string):
`if check_geofence(...):` is taken iff the value is a non-empty string. -/
def truthyStr : Option String → Bool
  | none => false
  | some s => s ≠ ""

/-- Index and value of the first element attaining the minimum of `key`,
exactly as Python `min(xs, key=key)` selects it (leftmost on ties);
`none` on the empty list, where Python raises `ValueError`. -/
def minIndexBy (key : α → ℚ) : List α → Option (Nat × α)
  | [] => none
  | x :: xs =>
    match minIndexBy key xs with
    | none => some (0, x)
    | some (j, y) => if key y < key x then some (j + 1, y) else some (0, x)

/-- The combined proximity-plus-load score used by `assign_driver`:
`haversine((d.lat,d.lon),(delivery.lat,delivery.lon)) + d.current_load`.
The external `haversine` library function is the parameter `hav`. -/
def score (hav : ℚ × ℚ → ℚ × ℚ → ℚ) (delivery : Delivery) (d : Driver) : ℚ :=
  hav (d.lat, d.lon) (delivery.lat, delivery.lon) + (d.current_load : ℚ)

/-- Increment a driver's `current_load` by one, as the line
`best_driver['current_load'] += 1` does. -/
def incLoad (d : Driver) : Driver :=
  { d with current_load := d.current_load + 1 }

/-- Embedding of `assign_driver(delivery)` from app.py: pick the driver
minimizing `score`, set the delivery's `assigned_driver` to its id and
bump its load in place.  Returns the updated driver list, the updated
delivery and the (updated) best driver, or `none` when the driver list is
empty and Python `min` would raise `ValueError`. -/
def assign_driver (hav : ℚ × ℚ → ℚ × ℚ → ℚ) (drivers : List Driver)
    (delivery : Delivery) : Option (List Driver × Delivery × Driver) :=
  match minIndexBy (score hav delivery) drivers with
  | none => none
  | some (i, best) =>
    some (drivers.set i (incLoad best),
          { delivery with assigned_driver := some best.id },
          incLoad best)

/-- Edges of a polygon given by its vertex list, the sequence treated as
implicitly closed: consecutive pairs plus the closing pair. -/
def polygonEdges (vs : List (ℚ × ℚ)) : List ((ℚ × ℚ) × (ℚ × ℚ)) :=
  match vs with
  | [] => []
  | v :: _ => vs.zip (vs.drop 1 ++ [v])

/-- Whether point `p` lies on the closed segment from `a` to `b`:
collinearity (zero cross product) plus bounding-box membership. -/
def onSegment (a b p : ℚ × ℚ) : Bool :=
  decide ((b.1 - a.1) * (p.2 - a.2) - (b.2 - a.2) * (p.1 - a.1) = 0) &&
  decide (min a.1 b.1 ≤ p.1) && decide (p.1 ≤ max a.1 b.1) &&
  decide (min a.2 b.2 ≤ p.2) && decide (p.2 ≤ max a.2 b.2)

/-- Whether `p` lies on the boundary of the polygon with vertices `vs`. -/
def onBoundary (vs : List (ℚ × ℚ)) (p : ℚ × ℚ) : Bool :=
  (polygonEdges vs).any (fun e => onSegment e.1 e.2 p)

/-- One step of the even-odd ray cast: does the edge `e` cross the
horizontal ray from `p` in the positive first-coordinate direction? -/
def crossesRay (p : ℚ × ℚ) (e : (ℚ × ℚ) × (ℚ × ℚ)) : Bool :=
  (decide (p.2 < e.1.2) != decide (p.2 < e.2.2)) &&
  decide (p.1 < e.1.1 + (e.2.1 - e.1.1) * (p.2 - e.1.2) / (e.2.2 - e.1.2))

/-- Parity of the number of polygon edges crossed by the ray from `p`. -/
def oddCrossings (vs : List (ℚ × ℚ)) (p : ℚ × ℚ) : Bool :=
  (polygonEdges vs).foldl (fun acc e => if crossesRay p e then !acc else acc) false

/-- Model of shapely `Polygon(vs).contains(Point p)`: true exactly when
`p` lies in the interior of the polygon — a point on the boundary is
never contained (GEOS `contains` requires an interior intersection), and
otherwise membership is the even-odd ray-crossing test. -/
def polyContains (vs : List (ℚ × ℚ)) (p : ℚ × ℚ) : Bool :=
  !onBoundary vs p && oddCrossings vs p

/-- Embedding of `check_geofence(lat, lon)` from app.py: the name of the
first geofence whose polygon contains `Point(lat, lon)`, else `None`. -/
def check_geofence (geofences : List Geofence) (lat lon : ℚ) : Option String :=
  match geofences with
  | [] => none
  | gf :: rest =>
    if polyContains gf.polygon (lat, lon) then some gf.name
    else check_geofence rest lat lon

/-- The seeded "No-Go Zone Makati" geofence of app.py. -/
def noGoZone : Geofence :=
  ⟨1, "No-Go Zone Makati",
    [(14.555, 121.023), (14.556, 121.023), (14.556, 121.025), (14.555, 121.025)]⟩

/-- The module-level `geofences` store of app.py. -/
def geofences : List Geofence := [noGoZone]

/-- The module-level `drivers` store of app.py. -/
def drivers : List Driver :=
  [⟨1, "123456789012345", "Alice", 14.5547, 121.0244, 1⟩,
   ⟨2, "234567890123456", "Bob", 14.5550, 121.0300, 2⟩,
   ⟨3, "345678901234567", "Charlie", 14.5600, 121.0200, 0⟩]

/-- A node of the osmnx road graph `G`: its id and its `y` (latitude) and
`x` (longitude) attributes. -/
structure RNode where
  id : Nat
  y : ℚ
  x : ℚ
  deriving Repr, DecidableEq

/-- A directed edge of the road graph with its `length` attribute in
meters; parallel edges between the same pair of nodes are permitted. -/
structure REdge where
  u : Nat
  v : Nat
  length : ℚ
  deriving Repr, DecidableEq

/-- The road graph: node set and directed multi-edge set. -/
structure Graph where
  nodes : List RNode
  edges : List REdge
  deriving Repr, DecidableEq

/-- Node ids present in the graph. -/
def nodeIds (g : Graph) : List Nat := g.nodes.map (·.id)

/-- Model of `ox.nearest_nodes(G, X, Y)`: the id of the graph node
minimizing the great-circle distance (the external distance function is
the parameter `nd`) from `(Y, X)`; `none` on an empty graph. -/
def nearest_node (nd : ℚ × ℚ → ℚ × ℚ → ℚ) (g : Graph) (x y : ℚ) : Option Nat :=
  (minIndexBy (fun n => nd (n.y, n.x) (y, x)) g.nodes).map (fun p => p.2.id)

/-- The weight of the hop from `u` to `v`: the minimum `length` over the
parallel edges between them (this is both the weight networkx Dijkstra
uses on a multigraph and the attribute
`ox.utils_graph.get_route_edge_attributes` reports), `none` if absent. -/
def edgeWeight (g : Graph) (u v : Nat) : Option ℚ :=
  ((g.edges.filter (fun e => e.u == u && e.v == v)).map (·.length)).min?

/-- Tentative shortest-path table: node id to (distance from the source,
node sequence of a realizing path). -/
abbrev DTable := List (Nat × ℚ × List Nat)

/-- Look up a node in the table. -/
def dlookup (t : DTable) (k : Nat) : Option (ℚ × List Nat) :=
  (t.find? (fun p => p.1 == k)).map (·.2)

/-- Replace the entry for `k` in the table. -/
def dupdate (t : DTable) (k : Nat) (v : ℚ × List Nat) : DTable :=
  t.map (fun p => if p.1 == k then (k, v) else p)

/-- Relax one directed edge of the graph. -/
def relaxEdge (t : DTable) (e : REdge) : DTable :=
  match dlookup t e.u with
  | none => t
  | some (du, pu) =>
    match dlookup t e.v with
    | none => t ++ [(e.v, du + e.length, pu ++ [e.v])]
    | some (dv, _) =>
      if du + e.length < dv then dupdate t e.v (du + e.length, pu ++ [e.v]) else t

/-- Relax every edge once. -/
def relaxAll (g : Graph) (t : DTable) : DTable := g.edges.foldl relaxEdge t

/-- Shortest-path table from `src`: Bellman–Ford relaxation, one round per
node, starting from the trivial path at the source.  With the non-negative
edge lengths of a road graph this computes the same distances as the
Dijkstra run inside `nx.shortest_path(G, ..., weight='length')`. -/
def spTable (g : Graph) (src : Nat) : DTable :=
  (List.range g.nodes.length).foldl (fun t _ => relaxAll g t) [(src, 0, [src])]

/-- Model of `nx.shortest_path(G, src, dst, weight='length')`: the node
sequence of a minimum-total-length path, `none` when networkx raises
(`NodeNotFound` for a missing endpoint, `NetworkXNoPath` when `dst` is
unreachable from `src`). -/
def shortest_path (g : Graph) (src dst : Nat) : Option (List Nat) :=
  if (nodeIds g).contains src && (nodeIds g).contains dst then
    (dlookup (spTable g src) dst).map (·.2)
  else none

/-- Coordinates `(G.nodes[n]['y'], G.nodes[n]['x'])` of a node id. -/
def node_coords (g : Graph) (n : Nat) : Option (ℚ × ℚ) :=
  (g.nodes.find? (fun m => m.id == n)).map (fun m => (m.y, m.x))

/-- Model of `ox.utils_graph.get_route_edge_attributes(G, nodes, 'length')`:
the per-hop lengths along the route, `none` when some hop has no edge. -/
def route_edge_lengths (g : Graph) (nodes : List Nat) : Option (List ℚ) :=
  (nodes.zip (nodes.drop 1)).mapM (fun p => edgeWeight g p.1 p.2)

/-- Round half to even, as Python `round` does on the exact value. -/
def roundHalfEven (q : ℚ) : ℤ :=
  if q - ⌊q⌋ < 1 / 2 then ⌊q⌋
  else if (1 : ℚ) / 2 < q - ⌊q⌋ then ⌊q⌋ + 1
  else if ⌊q⌋ % 2 = 0 then ⌊q⌋ else ⌊q⌋ + 1

/-- Model of Python `round(x, 1)`: round to one decimal place. -/
def round1 (q : ℚ) : ℚ := (roundHalfEven (q * 10) : ℚ) / 10

/-- The `try` body of `suggest_route(origin, destination)` from app.py:
map both endpoints to nearest nodes, compute the shortest node path, read
off the waypoint coordinates, sum the per-hop lengths and convert to an
ETA at 500 m/min, rounded to one decimal.  `none` wherever the Python
body would raise into the bare `except`. -/
def suggest_route_try (nd : ℚ × ℚ → ℚ × ℚ → ℚ) (g : Graph)
    (origin destination : ℚ × ℚ) : Option (List (ℚ × ℚ) × ℚ) := do
  let orig_node ← nearest_node nd g origin.2 origin.1
  let dest_node ← nearest_node nd g destination.2 destination.1
  let nodes ← shortest_path g orig_node dest_node
  let coords ← nodes.mapM (node_coords g)
  let lens ← route_edge_lengths g nodes
  some (coords, round1 (lens.sum / 500))

/-- Embedding of `suggest_route(origin, destination)` from app.py: the
`try` body, with the bare `except` collapsing every failure to `([], 0)`. -/
def suggest_route (nd : ℚ × ℚ → ℚ × ℚ → ℚ) (g : Graph)
    (origin destination : ℚ × ℚ) : List (ℚ × ℚ) × ℚ :=
  match suggest_route_try nd g origin destination with
  | some r => r
  | none => ([], 0)

/-- The L1 distance on coordinate pairs, used to instantiate the external
distance-function parameters at concrete scenarios (only its argmin
behaviour matters there). -/
def l1dist (p q : ℚ × ℚ) : ℚ := |p.1 - q.1| + |p.2 - q.2|

/-- The two-node, one-edge road network of routing Scenario A. -/
def graphA : Graph :=
  ⟨[⟨1, 14.5547, 121.0244⟩, ⟨2, 14.5600, 121.0200⟩], [⟨1, 2, 800⟩]⟩

/-- The server's mutable module-level stores of app.py (the road graph is
immutable after startup and is passed separately). -/
structure SState where
  drivers : List Driver
  deliveries : List Delivery
  geofences : List Geofence
  deriving Repr, DecidableEq

/-- One entry of the `response` list built by `assign_all`. -/
structure RespItem where
  delivery_id : Nat
  driver : String
  eta_min : ℚ
  deriving Repr, DecidableEq

/-- Loop accumulator for `assign_all`: the evolving driver list, the
deliveries already traversed (updated in place in Python), the response
so far, and whether the `ValueError` from `min` over an empty driver list
has been raised (after which the loop body no longer runs). -/
structure AAcc where
  drivers : List Driver
  processed : List Delivery
  response : List RespItem
  errored : Bool
  deriving Repr, DecidableEq

/-- One iteration of the `for d in deliveries:` loop in `assign_all`:
skip if `d['assigned_driver']` is truthy, skip if `check_geofence` is
truthy, otherwise assign a driver, compute the suggested route, and
record `eta_min` / `route_coords` on the delivery and a response entry. -/
def assign_step (hav nd : ℚ × ℚ → ℚ × ℚ → ℚ) (g : Graph)
    (gfs : List Geofence) (acc : AAcc) (d : Delivery) : AAcc :=
  if acc.errored then { acc with processed := acc.processed ++ [d] }
  else if truthyNat d.assigned_driver then { acc with processed := acc.processed ++ [d] }
  else if truthyStr (check_geofence gfs d.lat d.lon) then
    { acc with processed := acc.processed ++ [d] }
  else
    match assign_driver hav acc.drivers d with
    | none => { acc with processed := acc.processed ++ [d], errored := true }
    | some (drivers2, d2, best) =>
      let r := suggest_route nd g (best.lat, best.lon) (d2.lat, d2.lon)
      { drivers := drivers2,
        processed := acc.processed ++ [{ d2 with eta_min := some r.2, route_coords := some r.1 }],
        response := acc.response ++ [⟨d.id, best.driver, r.2⟩],
        errored := acc.errored }

/-- Whether the `assign_all` loop body skips a delivery without touching
any state: its `assigned_driver` is truthy, or the geofence check on its
position is truthy. -/
def skips (gfs : List Geofence) (d : Delivery) : Bool :=
  truthyNat d.assigned_driver || truthyStr (check_geofence gfs d.lat d.lon)

/-- The `assign_all` loop: fold the body over a list of deliveries. -/
def runAA (hav nd : ℚ × ℚ → ℚ × ℚ → ℚ) (g : Graph) (gfs : List Geofence)
    (acc : AAcc) (ds : List Delivery) : AAcc :=
  ds.foldl (assign_step hav nd g gfs) acc

/-- Embedding of the `assign_all` endpoint of app.py: fold the loop body
over the delivery store.  Returns the post-call stores, the response
list, and whether the call aborted with the `ValueError` raised by
`min` over an empty driver list (in which case Flask returns an error
and the response list is never rendered). -/
def assign_all (hav nd : ℚ × ℚ → ℚ × ℚ → ℚ) (g : Graph) (s : SState) :
    SState × List RespItem × Bool :=
  let acc := runAA hav nd g s.geofences ⟨s.drivers, [], [], false⟩ s.deliveries
  (⟨acc.drivers, acc.processed, s.geofences⟩, acc.response, acc.errored)

/-- The store state after a call to `assign_all`. -/
def assignAllState (hav nd : ℚ × ℚ → ℚ × ℚ → ℚ) (g : Graph) (s : SState) : SState :=
  (assign_all hav nd g s).1

/-- Model of sklearn `KMeans(n_clusters=k, random_state=42).fit(coords)`:
fitting first validates that the number of samples is at least
`n_clusters` and raises `ValueError` otherwise; the label assignment a
successful fit produces (`labels_`) is abstracted as the parameter
`fitLabels`. -/
def kmeans_labels (fitLabels : List (ℚ × ℚ) → Nat → List Nat)
    (coords : List (ℚ × ℚ)) (n_clusters : Nat) : Except String (List Nat) :=
  if coords.length < n_clusters then
    Except.error "n_samples should be >= n_clusters"
  else
    Except.ok (fitLabels coords n_clusters)

/-- Embedding of `cluster_deliveries(deliveries, n_clusters)` from app.py:
a single cluster when there is at most one delivery, otherwise the dict
keyed 0 to n_clusters - 1 (represented positionally) that groups the
deliveries by fitted label.  `Except.error` models the uncaught
`ValueError` out of `KMeans.fit`. -/
def cluster_deliveries (fitLabels : List (ℚ × ℚ) → Nat → List Nat)
    (ds : List Delivery) (n_clusters : Nat) : Except String (List (List Delivery)) :=
  if ds.length ≤ 1 then Except.ok [ds]
  else
    match kmeans_labels fitLabels (ds.map fun d => (d.lat, d.lon)) n_clusters with
    | Except.error e => Except.error e
    | Except.ok labels =>
      Except.ok ((List.range n_clusters).map
        (fun i => ((ds.zip labels).filter (fun p => p.2 == i)).map (·.1)))

/-- The body of one delivery-intake request item in `add_delivery`. -/
structure DeliveryReq where
  lat : ℚ
  lon : ℚ
  address : Option String
  deriving Repr, DecidableEq

/-- One intake step of `add_delivery` in app.py: the new delivery gets
`id = len(deliveries) + 1`, the given coordinates, the address defaulted
to `"Unknown"`, and `assigned_driver = None`, and is appended. -/
def add_one (ds : List Delivery) (r : DeliveryReq) : List Delivery :=
  ds ++ [⟨ds.length + 1, r.lat, r.lon, r.address.getD "Unknown", none, none, none⟩]

/-- Embedding of the `add_delivery` endpoint on a batch request (a single
request is the one-element batch): intake each item in order. -/
def add_delivery (ds : List Delivery) (rs : List DeliveryReq) : List Delivery :=
  rs.foldl add_one ds

/-- The body of one driver-registration request item in `add_driver`. -/
structure DriverReq where
  imei : Option String
  driver : String
  lat : ℚ
  lon : ℚ
  deriving Repr, DecidableEq

/-- One registration step of `add_driver` in app.py: the new driver gets
`id = len(drivers) + 1` and `current_load = 0`, and is appended. -/
def add_one_driver (l : List Driver) (r : DriverReq) : List Driver :=
  l ++ [⟨l.length + 1, r.imei.getD "000000000000000", r.driver, r.lat, r.lon, 0⟩]

/-- The delivery record produced when the `assign_all` loop assigns `best`
to `d`: the driver id, the rounded ETA and the route coordinates are all
written onto the delivery. -/
def assignedDelivery (nd : ℚ × ℚ → ℚ × ℚ → ℚ) (g : Graph) (best : Driver)
    (d : Delivery) : Delivery :=
  { d with
    assigned_driver := some best.id,
    eta_min := some (suggest_route nd g (best.lat, best.lon) (d.lat, d.lon)).2,
    route_coords := some (suggest_route nd g (best.lat, best.lon) (d.lat, d.lon)).1 }

/-- A delivery's assignment field is sound for a driver id list: it is
`None` or one of the listed ids. -/
def validAssigned (ids : List Nat) (d : Delivery) : Prop :=
  d.assigned_driver = none ∨ ∃ i ∈ ids, d.assigned_driver = some i

instance (ids : List Nat) (d : Delivery) : Decidable (validAssigned ids d) := by
  unfold validAssigned
  infer_instance

/-- The job of assignment Scenario B, at (14.5555, 121.0240). -/
def jobB : Delivery := ⟨1, 14.5555, 121.0240, "Makati", none, none, none⟩

/-- Alice of Scenario B: current load 1, about 0.1 km from the job. -/
def aliceB : Driver := ⟨1, "123456789012345", "Alice", 14.5547, 121.0244, 1⟩

/-- Bob of Scenario B: current load 2, about 0.6 km from the job. -/
def bobB : Driver := ⟨2, "234567890123456", "Bob", 14.5550, 121.0300, 2⟩

/-- The worker list of Scenario B. -/
def driversB : List Driver := [aliceB, bobB]

/-- Concrete stand-in for the haversine km distance in Scenario B: 0.1 km
from Alice's position, 0.6 km from Bob's. -/
def havB : ℚ × ℚ → ℚ × ℚ → ℚ :=
  fun p _ => if p = (14.5547, 121.0244) then 1 / 10 else 6 / 10

/-- An empty road graph, on which every route query is unroutable. -/
def graphEmpty : Graph := ⟨[], []⟩

/-- A deliverable job outside the No-Go zone (at Alice's position). -/
def jobOut : Delivery := ⟨2, 14.5547, 121.0244, "Out", none, none, none⟩

/-- A job already assigned to driver 1. -/
def jobAssigned : Delivery := ⟨1, 14.5555, 121.0240, "Makati", some 1, none, none⟩

/-- A store with one worker, one geofenced pending job and one
deliverable pending job. -/
def stateC3 : SState := ⟨[aliceB], [jobB, jobOut], geofences⟩

/-- A disconnected road network: the two Scenario A nodes with no edge. -/
def graphDisc : Graph :=
  ⟨[⟨1, 14.5547, 121.0244⟩, ⟨2, 14.5600, 121.0200⟩], []⟩

/-- A two-node network whose single edge is 333 m long, so the ETA
333 / 500 = 0.666 min is visibly rounded to 0.7. -/
def graph333 : Graph :=
  ⟨[⟨1, 14.5547, 121.0244⟩, ⟨2, 14.5600, 121.0200⟩], [⟨1, 2, 333⟩]⟩

theorem minIndexBy_eq_none {key : α → ℚ} {l : List α}
    (h : minIndexBy key l = none) : l = [] := by
  cases l with
  | nil => rfl
  | cons a t =>
    simp only [minIndexBy] at h
    cases hm : minIndexBy key t with
    | none => simp [hm] at h
    | some p => rw [hm] at h; by_cases hk : key p.2 < key a <;> simp [hk] at h

theorem minIndexBy_get {key : α → ℚ} {l : List α} {i : Nat} {x : α}
    (h : minIndexBy key l = some (i, x)) : l[i]? = some x := by
  induction l generalizing i x with
  | nil => simp [minIndexBy] at h
  | cons a t ih =>
    simp only [minIndexBy] at h
    cases hm : minIndexBy key t with
    | none =>
      rw [hm] at h
      simp only [Option.some.injEq, Prod.mk.injEq] at h
      obtain ⟨hi, hx⟩ := h
      subst hi; subst hx; simp
    | some p =>
      obtain ⟨j, y⟩ := p
      rw [hm] at h
      by_cases hk : key y < key a
      · simp only [hk, if_pos, Option.some.injEq, Prod.mk.injEq] at h
        obtain ⟨hi, hx⟩ := h
        subst hi; subst hx
        simpa using ih hm
      · simp only [hk, if_neg, Option.some.injEq, Prod.mk.injEq, not_false_iff] at h
        obtain ⟨hi, hx⟩ := h
        subst hi; subst hx; simp

theorem minIndexBy_le {key : α → ℚ} {l : List α} {i : Nat} {x : α}
    (h : minIndexBy key l = some (i, x)) : ∀ z ∈ l, key x ≤ key z := by
  induction l generalizing i x with
  | nil => simp [minIndexBy] at h
  | cons a t ih =>
    simp only [minIndexBy] at h
    intro z hz
    cases hm : minIndexBy key t with
    | none =>
      have ht : t = [] := minIndexBy_eq_none hm
      subst ht
      rw [hm] at h
      simp only [Option.some.injEq, Prod.mk.injEq] at h
      rcases List.mem_singleton.mp hz with hza
      rw [hza, ← h.2]
    | some p =>
      obtain ⟨j, y⟩ := p
      rw [hm] at h
      rcases List.mem_cons.mp hz with hza | hzt
      · subst hza
        by_cases hk : key y < key z
        · simp only [hk, if_pos, Option.some.injEq, Prod.mk.injEq] at h
          rw [← h.2]; exact le_of_lt hk
        · simp only [hk, if_neg, not_false_iff, Option.some.injEq, Prod.mk.injEq] at h
          rw [← h.2]
      · by_cases hk : key y < key a
        · simp only [hk, if_pos, Option.some.injEq, Prod.mk.injEq] at h
          rw [← h.2]
          exact ih hm z hzt
        · simp only [hk, if_neg, not_false_iff, Option.some.injEq, Prod.mk.injEq] at h
          rw [← h.2]
          exact le_trans (not_lt.mp hk) (ih hm z hzt)

theorem minIndexBy_first {key : α → ℚ} {l : List α} {i : Nat} {x : α}
    (h : minIndexBy key l = some (i, x)) :
    ∀ j, j < i → ∀ z, l[j]? = some z → key x < key z := by
  induction l generalizing i x with
  | nil => simp [minIndexBy] at h
  | cons a t ih =>
    simp only [minIndexBy] at h
    intro j hj z hz
    cases hm : minIndexBy key t with
    | none =>
      rw [hm] at h
      simp only [Option.some.injEq, Prod.mk.injEq] at h
      obtain ⟨hi, _⟩ := h
      omega
    | some p =>
      obtain ⟨j0, y⟩ := p
      rw [hm] at h
      by_cases hk : key y < key a
      · simp only [hk, if_pos, Option.some.injEq, Prod.mk.injEq] at h
        obtain ⟨hi, hx⟩ := h
        subst hi; subst hx
        cases j with
        | zero =>
          simp only [List.getElem?_cons_zero, Option.some.injEq] at hz
          rw [← hz]; exact hk
        | succ k =>
          have hk' : k < j0 := by omega
          exact ih hm k hk' z (by simpa using hz)
      · simp only [hk, if_neg, not_false_iff, Option.some.injEq, Prod.mk.injEq] at h
        obtain ⟨hi, _⟩ := h
        omega

theorem minIndexBy_mem {key : α → ℚ} {l : List α} {i : Nat} {x : α}
    (h : minIndexBy key l = some (i, x)) : x ∈ l := by
  have hg := minIndexBy_get h
  rw [List.getElem?_eq_some] at hg
  obtain ⟨hi, hx⟩ := hg
  exact hx ▸ List.getElem_mem hi

theorem minIndexBy_tie_lowest {idf : α → Nat} {key : α → ℚ} {l : List α}
    {i : Nat} {x : α}
    (hsorted : l.Pairwise (fun a b => idf a < idf b))
    (h : minIndexBy key l = some (i, x)) :
    ∀ z ∈ l, key z = key x → idf x ≤ idf z := by
  intro z hz hkey
  rw [List.mem_iff_getElem] at hz
  obtain ⟨j, hj, hzj⟩ := hz
  have hg := minIndexBy_get h
  rw [List.getElem?_eq_some] at hg
  obtain ⟨hi, hxi⟩ := hg
  rcases lt_trichotomy j i with hlt | heq | hgt
  · exact absurd hkey (ne_of_gt (hzj ▸ minIndexBy_first h j hlt z
      (List.getElem?_eq_some.mpr ⟨hj, hzj⟩)))
  · subst heq
    rw [← hzj, hxi]
  · have := List.pairwise_iff_get.mp hsorted ⟨i, hi⟩ ⟨j, hj⟩ hgt
    simp only [List.get_eq_getElem] at this
    rw [hxi, hzj] at this
    exact le_of_lt this

/-- C1: processing a job against a non-empty worker list, `assign_driver`
selects the worker minimizing `haversine(worker, job) + worker.current_load`,
and on score ties the worker with the lowest id (Python `min` keeps the
first of equals, and reachable driver stores are strictly id-sorted); the
selected worker's load is bumped and its id recorded on the job. -/
theorem claim_C1_assign_driver_min (hav : ℚ × ℚ → ℚ × ℚ → ℚ)
    (ds : List Driver) (dl : Delivery) (hne : ds ≠ [])
    (hsorted : ds.Pairwise (fun a b => a.id < b.id)) :
    ∃ i best, minIndexBy (score hav dl) ds = some (i, best) ∧
      best ∈ ds ∧
      assign_driver hav ds dl =
        some (ds.set i (incLoad best),
              { dl with assigned_driver := some best.id }, incLoad best) ∧
      (∀ d ∈ ds, score hav dl best ≤ score hav dl d) ∧
      (∀ d ∈ ds, score hav dl d = score hav dl best → best.id ≤ d.id) := by
  cases hm : minIndexBy (score hav dl) ds with
  | none => exact absurd (minIndexBy_eq_none hm) hne
  | some p =>
    obtain ⟨i, best⟩ := p
    refine ⟨i, best, rfl, minIndexBy_mem hm, ?_, minIndexBy_le hm, ?_⟩
    · simp [assign_driver, hm]
    · exact fun d hd hk => minIndexBy_tie_lowest hsorted hm d hd hk

/-- Witness for C1 at Scenario B: the hypotheses hold for the two-worker
store and Alice (score 0.1 + 1 = 1.1, beating Bob's 0.6 + 2 = 2.6) is the
worker assigned. -/
theorem claim_C1_assign_driver_min_witness :
    (driversB ≠ [] ∧ driversB.Pairwise (fun a b => a.id < b.id)) ∧
    (∃ i best, minIndexBy (score havB jobB) driversB = some (i, best) ∧
      best ∈ driversB ∧
      assign_driver havB driversB jobB =
        some (driversB.set i (incLoad best),
              { jobB with assigned_driver := some best.id }, incLoad best) ∧
      (∀ d ∈ driversB, score havB jobB best ≤ score havB jobB d) ∧
      (∀ d ∈ driversB, score havB jobB d = score havB jobB best → best.id ≤ d.id)) ∧
    assign_driver havB driversB jobB =
      some ([incLoad aliceB, bobB],
            { jobB with assigned_driver := some aliceB.id }, incLoad aliceB) :=
  ⟨⟨by decide, by decide⟩,
   claim_C1_assign_driver_min havB driversB jobB (by decide) (by decide),
   by decide⟩

theorem set_self_of_getElem? {l : List α} {i : Nat} {a : α}
    (h : l[i]? = some a) : l.set i a = l := by
  apply List.ext_getElem?
  intro j
  rw [List.getElem?_set]
  by_cases hj : i = j
  · subst hj
    have hi : i < l.length := (List.getElem?_eq_some.mp h).1
    simp [hi, h]
  · simp [hj]

theorem assign_step_skip {hav nd : ℚ × ℚ → ℚ × ℚ → ℚ} {g : Graph}
    {gfs : List Geofence} {acc : AAcc} {d : Delivery}
    (h : acc.errored = true ∨ skips gfs d = true) :
    assign_step hav nd g gfs acc d = { acc with processed := acc.processed ++ [d] } := by
  unfold assign_step
  rcases h with he | hs
  · simp [he]
  · simp only [skips, Bool.or_eq_true] at hs
    by_cases he : acc.errored
    · simp [he]
    · rcases hs with h1 | h2
      · simp [he, h1]
      · simp [he, h2]

theorem assign_step_cases (hav nd : ℚ × ℚ → ℚ × ℚ → ℚ) (g : Graph)
    (gfs : List Geofence) (acc : AAcc) (d : Delivery) :
    (assign_step hav nd g gfs acc d = { acc with processed := acc.processed ++ [d] } ∧
      (acc.errored = true ∨ skips gfs d = true)) ∨
    (assign_step hav nd g gfs acc d =
        { acc with processed := acc.processed ++ [d], errored := true } ∧
      acc.drivers = [] ∧ acc.errored = false ∧ skips gfs d = false) ∨
    (∃ i best,
      minIndexBy (score hav d) acc.drivers = some (i, best) ∧
      acc.errored = false ∧ skips gfs d = false ∧
      assign_step hav nd g gfs acc d =
        { drivers := acc.drivers.set i (incLoad best),
          processed := acc.processed ++ [assignedDelivery nd g best d],
          response := acc.response ++
            [⟨d.id, best.driver, (suggest_route nd g (best.lat, best.lon) (d.lat, d.lon)).2⟩],
          errored := acc.errored }) := by
  by_cases he : acc.errored
  · exact Or.inl ⟨assign_step_skip (Or.inl he), Or.inl he⟩
  · by_cases hs : skips gfs d
    · exact Or.inl ⟨assign_step_skip (Or.inr hs), Or.inr hs⟩
    · simp only [skips, Bool.or_eq_true, not_or, Bool.not_eq_true] at hs
      cases hm : minIndexBy (score hav d) acc.drivers with
      | none =>
        refine Or.inr (Or.inl ⟨?_, minIndexBy_eq_none hm, by simp [he], by simp [skips, hs]⟩)
        unfold assign_step
        simp [he, hs.1, hs.2, assign_driver, hm]
      | some p =>
        obtain ⟨i, best⟩ := p
        refine Or.inr (Or.inr ⟨i, best, rfl, by simp [he], by simp [skips, hs], ?_⟩)
        unfold assign_step
        simp [he, hs.1, hs.2, assign_driver, hm, assignedDelivery, incLoad]

theorem assign_step_processed_snoc (hav nd : ℚ × ℚ → ℚ × ℚ → ℚ) (g : Graph)
    (gfs : List Geofence) (acc : AAcc) (d : Delivery) :
    ∃ x, (assign_step hav nd g gfs acc d).processed = acc.processed ++ [x] := by
  rcases assign_step_cases hav nd g gfs acc d with ⟨h, _⟩ | ⟨h, _⟩ | ⟨i, best, _, _, _, h⟩ <;>
    rw [h]
  · exact ⟨d, rfl⟩
  · exact ⟨d, rfl⟩
  · exact ⟨assignedDelivery nd g best d, rfl⟩

theorem assign_step_driverIds (hav nd : ℚ × ℚ → ℚ × ℚ → ℚ) (g : Graph)
    (gfs : List Geofence) (acc : AAcc) (d : Delivery) :
    (assign_step hav nd g gfs acc d).drivers.map (·.id) = acc.drivers.map (·.id) := by
  rcases assign_step_cases hav nd g gfs acc d with ⟨h, _⟩ | ⟨h, _⟩ | ⟨i, best, hm, _, _, h⟩ <;>
    rw [h]
  have hg := minIndexBy_get hm
  rw [List.map_set]
  have : (incLoad best).id = best.id := rfl
  rw [this]
  apply set_self_of_getElem?
  rw [List.getElem?_map, hg]
  rfl

theorem assign_step_core_eq (hav nd : ℚ × ℚ → ℚ × ℚ → ℚ) (g : Graph)
    (gfs : List Geofence) {acc1 acc2 : AAcc} (hd : acc1.drivers = acc2.drivers)
    (he : acc1.errored = acc2.errored) (d : Delivery) :
    (assign_step hav nd g gfs acc1 d).drivers = (assign_step hav nd g gfs acc2 d).drivers ∧
    (assign_step hav nd g gfs acc1 d).errored = (assign_step hav nd g gfs acc2 d).errored := by
  unfold assign_step
  rw [hd, he]
  by_cases h1 : acc2.errored <;> by_cases h2 : truthyNat d.assigned_driver <;>
    by_cases h3 : truthyStr (check_geofence gfs d.lat d.lon) <;>
    simp only [h1, h2, h3, if_true, if_false, Bool.false_eq_true, ite_true, ite_false] <;>
    first
      | exact ⟨by trivial, by trivial⟩
      | (cases hm : assign_driver hav acc2.drivers d with
          | none => exact ⟨by trivial, by trivial⟩
          | some p => obtain ⟨d2, dl2, b2⟩ := p; exact ⟨by trivial, by trivial⟩)

theorem runAA_append (hav nd : ℚ × ℚ → ℚ × ℚ → ℚ) (g : Graph)
    (gfs : List Geofence) (acc : AAcc) (l1 l2 : List Delivery) :
    runAA hav nd g gfs acc (l1 ++ l2) = runAA hav nd g gfs (runAA hav nd g gfs acc l1) l2 :=
  List.foldl_append ..

theorem runAA_core_eq (hav nd : ℚ × ℚ → ℚ × ℚ → ℚ) (g : Graph)
    (gfs : List Geofence) {acc1 acc2 : AAcc} (hd : acc1.drivers = acc2.drivers)
    (he : acc1.errored = acc2.errored) (ds : List Delivery) :
    (runAA hav nd g gfs acc1 ds).drivers = (runAA hav nd g gfs acc2 ds).drivers ∧
    (runAA hav nd g gfs acc1 ds).errored = (runAA hav nd g gfs acc2 ds).errored := by
  induction ds generalizing acc1 acc2 with
  | nil => exact ⟨hd, he⟩
  | cons d t ih =>
    have hstep := assign_step_core_eq hav nd g gfs hd he d
    exact ih hstep.1 hstep.2

theorem runAA_processed_prefix (hav nd : ℚ × ℚ → ℚ × ℚ → ℚ) (g : Graph)
    (gfs : List Geofence) (acc : AAcc) (ds : List Delivery) :
    ∃ t, (runAA hav nd g gfs acc ds).processed = acc.processed ++ t ∧
      t.length = ds.length := by
  induction ds generalizing acc with
  | nil => exact ⟨[], by simp [runAA]⟩
  | cons d t ih =>
    obtain ⟨x, hx⟩ := assign_step_processed_snoc hav nd g gfs acc d
    obtain ⟨t2, ht2, hl2⟩ := ih (assign_step hav nd g gfs acc d)
    refine ⟨x :: t2, ?_, by simp [hl2]⟩
    show (runAA hav nd g gfs (assign_step hav nd g gfs acc d) t).processed = _
    rw [ht2, hx]
    simp

theorem runAA_skips_all (hav nd : ℚ × ℚ → ℚ × ℚ → ℚ) (g : Graph)
    (gfs : List Geofence) (acc : AAcc) (ds : List Delivery)
    (h : ∀ d ∈ ds, skips gfs d = true) :
    runAA hav nd g gfs acc ds = { acc with processed := acc.processed ++ ds } := by
  induction ds generalizing acc with
  | nil => simp [runAA]
  | cons d t ih =>
    have hd : skips gfs d = true := h d (List.mem_cons_self d t)
    have hstep := @assign_step_skip hav nd g gfs acc d (Or.inr hd)
    show runAA hav nd g gfs (assign_step hav nd g gfs acc d) t = _
    rw [hstep, ih _ (fun x hx => h x (List.mem_cons_of_mem d hx))]
    simp

theorem runAA_skip_at (hav nd : ℚ × ℚ → ℚ × ℚ → ℚ) (g : Graph)
    (gfs : List Geofence) {ds : List Delivery} {i : Nat} {d : Delivery} (acc : AAcc)
    (hd : ds[i]? = some d) (hs : skips gfs d = true) :
    (runAA hav nd g gfs acc ds).processed[acc.processed.length + i]? = some d := by
  induction ds generalizing acc i with
  | nil => simp at hd
  | cons a t ih =>
    cases i with
    | zero =>
      simp only [List.getElem?_cons_zero, Option.some.injEq] at hd
      subst hd
      have hstep := @assign_step_skip hav nd g gfs acc a (Or.inr hs)
      show (runAA hav nd g gfs (assign_step hav nd g gfs acc a) t).processed[_]? = _
      obtain ⟨t2, ht2, _⟩ := runAA_processed_prefix hav nd g gfs
        (assign_step hav nd g gfs acc a) t
      rw [ht2, hstep]
      simp only [Nat.add_zero, List.append_assoc]
      rw [List.getElem?_append_right (le_refl acc.processed.length)]
      simp
    | succ k =>
      simp only [List.getElem?_cons_succ] at hd
      obtain ⟨x, hx⟩ := assign_step_processed_snoc hav nd g gfs acc a
      have h2 := ih (assign_step hav nd g gfs acc a) hd
      rw [hx] at h2
      show (runAA hav nd g gfs (assign_step hav nd g gfs acc a) t).processed[acc.processed.length + (k + 1)]? = some d
      have hidx : (acc.processed ++ [x]).length + k = acc.processed.length + (k + 1) := by
        simp only [List.length_append, List.length_singleton]
        omega
      rw [← hidx]
      exact h2

theorem runAA_valid (hav nd : ℚ × ℚ → ℚ × ℚ → ℚ) (g : Graph)
    (gfs : List Geofence) {ids : List Nat} (acc : AAcc) (ds : List Delivery)
    (hid : acc.drivers.map (·.id) = ids)
    (hp : ∀ x ∈ acc.processed, validAssigned ids x)
    (hds : ∀ x ∈ ds, validAssigned ids x) :
    (runAA hav nd g gfs acc ds).drivers.map (·.id) = ids ∧
    ∀ x ∈ (runAA hav nd g gfs acc ds).processed, validAssigned ids x := by
  induction ds generalizing acc with
  | nil => exact ⟨hid, hp⟩
  | cons d t ih =>
    have hd : validAssigned ids d := hds d (List.mem_cons_self d t)
    have hids2 : (assign_step hav nd g gfs acc d).drivers.map (·.id) = ids :=
      (assign_step_driverIds hav nd g gfs acc d).trans hid
    have hp2 : ∀ x ∈ (assign_step hav nd g gfs acc d).processed, validAssigned ids x := by
      rcases assign_step_cases hav nd g gfs acc d with ⟨h, _⟩ | ⟨h, _⟩ |
        ⟨i, best, hm, _, _, h⟩ <;> rw [h] <;> intro x hx
      · rcases List.mem_append.mp hx with hx1 | hx2
        · exact hp x hx1
        · rw [List.mem_singleton.mp hx2]; exact hd
      · rcases List.mem_append.mp hx with hx1 | hx2
        · exact hp x hx1
        · rw [List.mem_singleton.mp hx2]; exact hd
      · rcases List.mem_append.mp hx with hx1 | hx2
        · exact hp x hx1
        · rw [List.mem_singleton.mp hx2]
          refine Or.inr ⟨best.id, ?_, rfl⟩
          rw [← hid]
          exact List.mem_map.mpr ⟨best, minIndexBy_mem hm, rfl⟩
    exact ih (assign_step hav nd g gfs acc d) hids2 hp2
      (fun x hx => hds x (List.mem_cons_of_mem d hx))

/-- C2: after any call to `assign_all`, each delivery's `assigned_driver`
is `None` or the id of a driver present in the driver store (whose id set
the call does not change), provided the pre-state already satisfied this
soundness invariant — deliveries are created with `assigned_driver=None`
and only `assign_driver` ever writes the field, so every reachable state
satisfies it. -/
theorem claim_C2_assigned_refers_to_driver (hav nd : ℚ × ℚ → ℚ × ℚ → ℚ)
    (g : Graph) (s : SState)
    (hpre : ∀ d ∈ s.deliveries, validAssigned (s.drivers.map (·.id)) d) :
    (assignAllState hav nd g s).drivers.map (·.id) = s.drivers.map (·.id) ∧
    ∀ d ∈ (assignAllState hav nd g s).deliveries,
      validAssigned ((assignAllState hav nd g s).drivers.map (·.id)) d := by
  have h := runAA_valid hav nd g s.geofences ⟨s.drivers, [], [], false⟩
    s.deliveries rfl (by intro x hx; simp at hx) hpre
  have hstate : assignAllState hav nd g s =
      ⟨(runAA hav nd g s.geofences ⟨s.drivers, [], [], false⟩ s.deliveries).drivers,
       (runAA hav nd g s.geofences ⟨s.drivers, [], [], false⟩ s.deliveries).processed,
       s.geofences⟩ := rfl
  rw [hstate]
  exact ⟨h.1, by rw [h.1]; exact h.2⟩

/-- Witness for C2: a store with the three seeded drivers and one
unassigned delivery satisfies the precondition, and the invariant holds
after the call. -/
theorem claim_C2_assigned_refers_to_driver_witness :
    (∀ d ∈ [jobB], validAssigned (drivers.map (·.id)) d) ∧
    ((assignAllState havB l1dist graphA ⟨drivers, [jobB], geofences⟩).drivers.map (·.id) =
        drivers.map (·.id) ∧
      ∀ d ∈ (assignAllState havB l1dist graphA ⟨drivers, [jobB], geofences⟩).deliveries,
        validAssigned
          ((assignAllState havB l1dist graphA ⟨drivers, [jobB], geofences⟩).drivers.map (·.id)) d) :=
  ⟨by decide,
   claim_C2_assigned_refers_to_driver havB l1dist graphA ⟨drivers, [jobB], geofences⟩
     (by decide)⟩

theorem assignAllState_eq (hav nd : ℚ × ℚ → ℚ × ℚ → ℚ) (g : Graph) (s : SState) :
    assignAllState hav nd g s =
      ⟨(runAA hav nd g s.geofences ⟨s.drivers, [], [], false⟩ s.deliveries).drivers,
       (runAA hav nd g s.geofences ⟨s.drivers, [], [], false⟩ s.deliveries).processed,
       s.geofences⟩ := rfl

theorem runAA_drivers_erase_skip (hav nd : ℚ × ℚ → ℚ × ℚ → ℚ) (g : Graph)
    (gfs : List Geofence) (acc : AAcc) (l1 : List Delivery) (d : Delivery)
    (l2 : List Delivery) (hs : skips gfs d = true) :
    (runAA hav nd g gfs acc (l1 ++ d :: l2)).drivers =
      (runAA hav nd g gfs acc (l1 ++ l2)).drivers := by
  have hL : runAA hav nd g gfs acc (l1 ++ d :: l2) =
      runAA hav nd g gfs (runAA hav nd g gfs (runAA hav nd g gfs acc l1) [d]) l2 := by
    rw [show l1 ++ d :: l2 = (l1 ++ [d]) ++ l2 by simp, runAA_append, runAA_append]
  have hR : runAA hav nd g gfs acc (l1 ++ l2) =
      runAA hav nd g gfs (runAA hav nd g gfs acc l1) l2 := runAA_append ..
  have hstep : runAA hav nd g gfs (runAA hav nd g gfs acc l1) [d] =
      { runAA hav nd g gfs acc l1 with
        processed := (runAA hav nd g gfs acc l1).processed ++ [d] } :=
    @assign_step_skip hav nd g gfs (runAA hav nd g gfs acc l1) d (Or.inr hs)
  rw [hL, hR, hstep]
  exact (@runAA_core_eq hav nd g gfs
    { runAA hav nd g gfs acc l1 with
      processed := (runAA hav nd g gfs acc l1).processed ++ [d] }
    (runAA hav nd g gfs acc l1) rfl rfl l2).1

theorem runAA_empty_drivers (hav nd : ℚ × ℚ → ℚ × ℚ → ℚ) (g : Graph)
    (gfs : List Geofence) (acc : AAcc) (ds : List Delivery)
    (h : acc.drivers = []) :
    (runAA hav nd g gfs acc ds).drivers = acc.drivers ∧
    (runAA hav nd g gfs acc ds).processed = acc.processed ++ ds := by
  induction ds generalizing acc with
  | nil => exact ⟨rfl, by simp [runAA]⟩
  | cons d t ih =>
    rcases assign_step_cases hav nd g gfs acc d with ⟨hstep, _⟩ | ⟨hstep, _⟩ |
      ⟨i, best, hm, _, _, hstep⟩
    · have h2 := ih (assign_step hav nd g gfs acc d) (by rw [hstep]; exact h)
      constructor
      · show (runAA hav nd g gfs (assign_step hav nd g gfs acc d) t).drivers = acc.drivers
        rw [h2.1, hstep]
      · show (runAA hav nd g gfs (assign_step hav nd g gfs acc d) t).processed =
          acc.processed ++ d :: t
        rw [h2.2, hstep]
        simp
    · have h2 := ih (assign_step hav nd g gfs acc d) (by rw [hstep]; exact h)
      constructor
      · show (runAA hav nd g gfs (assign_step hav nd g gfs acc d) t).drivers = acc.drivers
        rw [h2.1, hstep]
      · show (runAA hav nd g gfs (assign_step hav nd g gfs acc d) t).processed =
          acc.processed ++ d :: t
        rw [h2.2, hstep]
        simp
    · rw [h] at hm
      simp [minIndexBy] at hm

theorem assign_step_settled (hav nd : ℚ × ℚ → ℚ × ℚ → ℚ) (g : Graph)
    (gfs : List Geofence) (acc : AAcc) (d : Delivery)
    (hne : acc.drivers ≠ []) (hid0 : ∀ b ∈ acc.drivers, b.id ≠ 0)
    (herr : acc.errored = false)
    (hproc : ∀ x ∈ acc.processed, skips gfs x = true) :
    (assign_step hav nd g gfs acc d).drivers ≠ [] ∧
    (∀ b ∈ (assign_step hav nd g gfs acc d).drivers, b.id ≠ 0) ∧
    (assign_step hav nd g gfs acc d).errored = false ∧
    ∀ x ∈ (assign_step hav nd g gfs acc d).processed, skips gfs x = true := by
  have hids := assign_step_driverIds hav nd g gfs acc d
  have hne2 : (assign_step hav nd g gfs acc d).drivers ≠ [] := by
    intro hnil
    rw [hnil] at hids
    exact hne (List.map_eq_nil_iff.mp hids.symm)
  have hid02 : ∀ b ∈ (assign_step hav nd g gfs acc d).drivers, b.id ≠ 0 := by
    intro b hb
    have : b.id ∈ acc.drivers.map (·.id) := hids ▸ List.mem_map.mpr ⟨b, hb, rfl⟩
    obtain ⟨a, ha, hab⟩ := List.mem_map.mp this
    exact hab ▸ hid0 a ha
  rcases assign_step_cases hav nd g gfs acc d with ⟨hstep, hc⟩ | ⟨_, hempty, _, _⟩ |
    ⟨i, best, hm, _, _, hstep⟩
  · have hs : skips gfs d = true := by
      rcases hc with hc | hc
      · rw [herr] at hc; exact absurd hc (by simp)
      · exact hc
    refine ⟨hne2, hid02, by rw [hstep]; exact herr, ?_⟩
    rw [hstep]
    intro x hx
    rcases List.mem_append.mp hx with hx1 | hx2
    · exact hproc x hx1
    · rw [List.mem_singleton.mp hx2]; exact hs
  · exact absurd hempty hne
  · refine ⟨hne2, hid02, by rw [hstep]; exact herr, ?_⟩
    rw [hstep]
    intro x hx
    rcases List.mem_append.mp hx with hx1 | hx2
    · exact hproc x hx1
    · rw [List.mem_singleton.mp hx2]
      have hb : best ∈ acc.drivers := minIndexBy_mem hm
      have : best.id ≠ 0 := hid0 best hb
      simp [skips, assignedDelivery, truthyNat, this]

theorem runAA_settled (hav nd : ℚ × ℚ → ℚ × ℚ → ℚ) (g : Graph)
    (gfs : List Geofence) (acc : AAcc) (ds : List Delivery)
    (hne : acc.drivers ≠ []) (hid0 : ∀ b ∈ acc.drivers, b.id ≠ 0)
    (herr : acc.errored = false)
    (hproc : ∀ x ∈ acc.processed, skips gfs x = true) :
    (runAA hav nd g gfs acc ds).drivers ≠ [] ∧
    (∀ b ∈ (runAA hav nd g gfs acc ds).drivers, b.id ≠ 0) ∧
    (runAA hav nd g gfs acc ds).errored = false ∧
    ∀ x ∈ (runAA hav nd g gfs acc ds).processed, skips gfs x = true := by
  induction ds generalizing acc with
  | nil => exact ⟨hne, hid0, herr, hproc⟩
  | cons d t ih =>
    obtain ⟨h1, h2, h3, h4⟩ := assign_step_settled hav nd g gfs acc d hne hid0 herr hproc
    exact ih (assign_step hav nd g gfs acc d) h1 h2 h3 h4

/-- C3 (counterexample to the claim as stated): in a store holding one
worker, one unassigned job inside the No-Go zone and one deliverable job
outside it, `assign_all` leaves the geofenced job unassigned but does
change a worker's load (for the other job), so "leaves every worker's
currentLoad unchanged" fails. -/
theorem claim_C3_counterexample :
    jobB ∈ stateC3.deliveries ∧ jobB.assigned_driver = none ∧
    noGoZone ∈ stateC3.geofences ∧
    polyContains noGoZone.polygon (jobB.lat, jobB.lon) = true ∧
    (assignAllState l1dist l1dist graphEmpty stateC3).drivers ≠ stateC3.drivers := by
  refine ⟨by decide, by decide, by decide, by decide, by decide⟩

/-- C3 (amended): an unassigned job flagged by the geofence check is left
entirely unchanged by `assign_all` (in particular it stays unassigned),
and no worker load is incremented on its behalf: the post-call driver
store is the one obtained with the job removed, and when every delivery
is skipped (assigned or geofenced) the driver store is untouched. -/
theorem claim_C3_geofenced_skipped (hav nd : ℚ × ℚ → ℚ × ℚ → ℚ) (g : Graph)
    (s : SState) (l1 l2 : List Delivery) (d : Delivery)
    (hsplit : s.deliveries = l1 ++ d :: l2)
    (hunassigned : d.assigned_driver = none)
    (hgeo : truthyStr (check_geofence s.geofences d.lat d.lon) = true) :
    (assignAllState hav nd g s).deliveries[l1.length]? = some d ∧
    ((assignAllState hav nd g s).deliveries[l1.length]?).map (·.assigned_driver) =
      some none ∧
    (assignAllState hav nd g s).drivers =
      (assignAllState hav nd g ⟨s.drivers, l1 ++ l2, s.geofences⟩).drivers ∧
    ((∀ x ∈ s.deliveries, skips s.geofences x = true) →
      (assignAllState hav nd g s).drivers = s.drivers) := by
  have hs : skips s.geofences d = true := by simp [skips, hgeo]
  have hpos : (assignAllState hav nd g s).deliveries[l1.length]? = some d := by
    rw [assignAllState_eq]
    have hd : s.deliveries[l1.length]? = some d := by
      rw [hsplit, List.getElem?_append_right (le_refl l1.length)]
      simp
    simpa using runAA_skip_at hav nd g s.geofences ⟨s.drivers, [], [], false⟩ hd hs
  refine ⟨hpos, by rw [hpos, Option.map, hunassigned], ?_, ?_⟩
  · rw [assignAllState_eq, assignAllState_eq, hsplit]
    exact runAA_drivers_erase_skip hav nd g s.geofences ⟨s.drivers, [], [], false⟩
      l1 d l2 hs
  · intro hall
    rw [assignAllState_eq]
    rw [runAA_skips_all hav nd g s.geofences ⟨s.drivers, [], [], false⟩
      s.deliveries hall]

/-- Witness for the amended C3 at Scenario C: the store `stateC3` with the
job inside the "No-Go Zone Makati" polygon in first position satisfies
every hypothesis, and the conclusions hold there. -/
theorem claim_C3_geofenced_skipped_witness :
    (stateC3.deliveries = [] ++ jobB :: [jobOut] ∧ jobB.assigned_driver = none ∧
      truthyStr (check_geofence stateC3.geofences jobB.lat jobB.lon) = true) ∧
    ((assignAllState l1dist l1dist graphEmpty stateC3).deliveries[(0 : Nat)]? = some jobB ∧
      ((assignAllState l1dist l1dist graphEmpty stateC3).deliveries[(0 : Nat)]?).map
        (·.assigned_driver) = some none ∧
      (assignAllState l1dist l1dist graphEmpty stateC3).drivers =
        (assignAllState l1dist l1dist graphEmpty
          ⟨stateC3.drivers, [] ++ [jobOut], stateC3.geofences⟩).drivers ∧
      ((∀ x ∈ stateC3.deliveries, skips stateC3.geofences x = true) →
        (assignAllState l1dist l1dist graphEmpty stateC3).drivers = stateC3.drivers)) :=
  ⟨⟨by decide, by decide, by decide⟩, by
    have h := claim_C3_geofenced_skipped l1dist l1dist graphEmpty stateC3
      [] [jobOut] jobB (by decide) (by decide) (by decide)
    simpa using h⟩

/-- C4: a job whose `assigned_driver` is already set (truthy) is left
entirely unchanged by `assign_all`, no worker load is incremented on its
behalf (the post-call driver store equals the one obtained with the job
removed), and the call is idempotent on the stores: running `assign_all`
twice leaves exactly the state of running it once.  The hypothesis that
stored driver ids are non-zero holds in every reachable store, since ids
are assigned from 1 upward. -/
theorem claim_C4_already_assigned_noop (hav nd : ℚ × ℚ → ℚ × ℚ → ℚ) (g : Graph)
    (s : SState) (hid0 : ∀ b ∈ s.drivers, b.id ≠ 0) :
    (∀ (i : Nat) (d : Delivery), s.deliveries[i]? = some d →
      truthyNat d.assigned_driver = true →
      (assignAllState hav nd g s).deliveries[i]? = some d) ∧
    (∀ l1 d l2, s.deliveries = l1 ++ d :: l2 → truthyNat d.assigned_driver = true →
      (assignAllState hav nd g s).drivers =
        (assignAllState hav nd g ⟨s.drivers, l1 ++ l2, s.geofences⟩).drivers) ∧
    assignAllState hav nd g (assignAllState hav nd g s) = assignAllState hav nd g s := by
  refine ⟨?_, ?_, ?_⟩
  · intro i d hd hass
    rw [assignAllState_eq]
    have hs : skips s.geofences d = true := by simp [skips, hass]
    simpa using runAA_skip_at hav nd g s.geofences ⟨s.drivers, [], [], false⟩ hd hs
  · intro l1 d l2 hsplit hass
    have hs : skips s.geofences d = true := by simp [skips, hass]
    rw [assignAllState_eq, assignAllState_eq, hsplit]
    exact runAA_drivers_erase_skip hav nd g s.geofences ⟨s.drivers, [], [], false⟩
      l1 d l2 hs
  · by_cases hne : s.drivers = []
    · have h0 := runAA_empty_drivers hav nd g s.geofences ⟨s.drivers, [], [], false⟩
        s.deliveries hne
      have hfix : assignAllState hav nd g s = s := by
        rw [assignAllState_eq]
        have h1 : (runAA hav nd g s.geofences ⟨s.drivers, [], [], false⟩
            s.deliveries).drivers = s.drivers := h0.1
        have h2 : (runAA hav nd g s.geofences ⟨s.drivers, [], [], false⟩
            s.deliveries).processed = s.deliveries := by
          rw [h0.2]; simp
        rw [h1, h2]
      rw [hfix]
      exact hfix
    · have hset := runAA_settled hav nd g s.geofences ⟨s.drivers, [], [], false⟩
        s.deliveries hne hid0 rfl (by intro x hx; simp at hx)
      have hall : ∀ x ∈ (assignAllState hav nd g s).deliveries,
          skips (assignAllState hav nd g s).geofences x = true := by
        rw [assignAllState_eq]
        exact hset.2.2.2
      have hrun := runAA_skips_all hav nd g (assignAllState hav nd g s).geofences
        ⟨(assignAllState hav nd g s).drivers, [], [], false⟩
        (assignAllState hav nd g s).deliveries hall
      rw [@assignAllState_eq hav nd g (assignAllState hav nd g s), hrun]
      simp

theorem suggest_route_try_spec {nd : ℚ × ℚ → ℚ × ℚ → ℚ} {g : Graph}
    {o dst : ℚ × ℚ} {coords : List (ℚ × ℚ)} {eta : ℚ}
    (h : suggest_route_try nd g o dst = some (coords, eta)) :
    ∃ n1 n2 nodes lens,
      nearest_node nd g o.2 o.1 = some n1 ∧
      nearest_node nd g dst.2 dst.1 = some n2 ∧
      shortest_path g n1 n2 = some nodes ∧
      nodes.mapM (node_coords g) = some coords ∧
      route_edge_lengths g nodes = some lens ∧
      eta = round1 (lens.sum / 500) := by
  unfold suggest_route_try at h
  cases h1 : nearest_node nd g o.2 o.1 with
  | none => rw [h1] at h; simp at h
  | some n1 =>
    rw [h1] at h
    simp only [Option.bind_eq_bind, Option.some_bind] at h
    cases h2 : nearest_node nd g dst.2 dst.1 with
    | none => rw [h2] at h; simp at h
    | some n2 =>
      rw [h2] at h
      simp only [Option.bind_eq_bind, Option.some_bind] at h
      cases h3 : shortest_path g n1 n2 with
      | none => rw [h3] at h; simp at h
      | some nodes =>
        rw [h3] at h
        simp only [Option.bind_eq_bind, Option.some_bind] at h
        cases h4 : nodes.mapM (node_coords g) with
        | none => rw [h4] at h; simp at h
        | some cs =>
          rw [h4] at h
          simp only [Option.bind_eq_bind, Option.some_bind] at h
          cases h5 : route_edge_lengths g nodes with
          | none => rw [h5] at h; simp at h
          | some lens =>
            rw [h5] at h
            simp only [Option.bind_eq_bind, Option.some_bind, Option.some.injEq,
              Prod.mk.injEq] at h
            exact ⟨n1, n2, nodes, lens, rfl, rfl, h3, by rw [h4, h.1], h5, h.2.symm⟩

theorem mapM_length {α β : Type} {f : α → Option β} {l : List α} {l2 : List β}
    (h : l.mapM f = some l2) : l2.length = l.length := by
  induction l generalizing l2 with
  | nil =>
    simp only [List.mapM_nil, pure, Option.some.injEq] at h
    rw [← h]
    rfl
  | cons a t ih =>
    rw [List.mapM_cons] at h
    cases hf : f a with
    | none => rw [hf] at h; simp at h
    | some b =>
      rw [hf] at h
      simp only [Option.bind_eq_bind, Option.some_bind] at h
      cases ht : t.mapM f with
      | none => rw [ht] at h; simp at h
      | some bs =>
        rw [ht] at h
        simp only [Option.bind_eq_bind, Option.some_bind, pure, Option.some.injEq] at h
        rw [← h]
        simp [ih ht]

/-- C5: whenever the `try` body of `suggest_route` succeeds, the returned
ETA equals `round(total / 500, 1)` where `total` is the sum of the per-hop
`length` attributes along the computed shortest node path, and the
returned waypoints are exactly that path's node coordinates (one waypoint
per path node). -/
theorem claim_C5_eta_is_path_length_over_500 (nd : ℚ × ℚ → ℚ × ℚ → ℚ)
    (g : Graph) (o dst : ℚ × ℚ) (coords : List (ℚ × ℚ)) (eta : ℚ)
    (h : suggest_route_try nd g o dst = some (coords, eta)) :
    ∃ n1 n2 nodes lens,
      nearest_node nd g o.2 o.1 = some n1 ∧
      nearest_node nd g dst.2 dst.1 = some n2 ∧
      shortest_path g n1 n2 = some nodes ∧
      route_edge_lengths g nodes = some lens ∧
      suggest_route nd g o dst = (coords, round1 (lens.sum / 500)) ∧
      coords.length = nodes.length := by
  obtain ⟨n1, n2, nodes, lens, h1, h2, h3, h4, h5, h6⟩ := suggest_route_try_spec h
  refine ⟨n1, n2, nodes, lens, h1, h2, h3, h5, ?_, mapM_length h4⟩
  unfold suggest_route
  rw [h, ← h6]

/-- Witness for C5 at routing Scenario A: on the two-node network joined
by one 800 m edge, `suggest_route` between the node coordinates returns
exactly the two node waypoints and ETA `800 / 500 = 1.6` minutes. -/
theorem claim_C5_eta_is_path_length_over_500_witness :
    suggest_route_try l1dist graphA (14.5547, 121.0244) (14.5600, 121.0200) =
      some ([(14.5547, 121.0244), (14.5600, 121.0200)], 8 / 5) ∧
    suggest_route l1dist graphA (14.5547, 121.0244) (14.5600, 121.0200) =
      ([(14.5547, 121.0244), (14.5600, 121.0200)], 8 / 5) ∧
    ([(14.5547, 121.0244), (14.5600, 121.0200)] : List (ℚ × ℚ)).length = 2 ∧
    (8 : ℚ) / 5 = 800 / 500 ∧
    (∃ n1 n2 nodes lens,
      nearest_node l1dist graphA (14.5547, 121.0244).2 (14.5547, 121.0244).1 = some n1 ∧
      nearest_node l1dist graphA (14.5600, 121.0200).2 (14.5600, 121.0200).1 = some n2 ∧
      shortest_path graphA n1 n2 = some nodes ∧
      route_edge_lengths graphA nodes = some lens ∧
      suggest_route l1dist graphA (14.5547, 121.0244) (14.5600, 121.0200) =
        ([(14.5547, 121.0244), (14.5600, 121.0200)], round1 (lens.sum / 500)) ∧
      ([(14.5547, 121.0244), (14.5600, 121.0200)] : List (ℚ × ℚ)).length = nodes.length) :=
  ⟨by decide, by decide, by decide, by decide,
   claim_C5_eta_is_path_length_over_500 l1dist graphA (14.5547, 121.0244)
     (14.5600, 121.0200) [(14.5547, 121.0244), (14.5600, 121.0200)] (8 / 5) (by decide)⟩

/-- C6: when nearest-node mapping fails for either endpoint or no path
exists between the mapped endpoints, `suggest_route` returns the empty
waypoint list and ETA 0 (the bare `except` turns every such failure into
`([], 0)` rather than raising to the caller). -/
theorem claim_C6_unroutable_returns_empty (nd : ℚ × ℚ → ℚ × ℚ → ℚ)
    (g : Graph) (o dst : ℚ × ℚ)
    (h : nearest_node nd g o.2 o.1 = none ∨ nearest_node nd g dst.2 dst.1 = none ∨
      ∀ n1 n2, nearest_node nd g o.2 o.1 = some n1 →
        nearest_node nd g dst.2 dst.1 = some n2 → shortest_path g n1 n2 = none) :
    suggest_route nd g o dst = ([], 0) := by
  unfold suggest_route
  cases htry : suggest_route_try nd g o dst with
  | none => rfl
  | some r =>
    obtain ⟨c, e⟩ := r
    obtain ⟨n1, n2, nodes, lens, h1, h2, h3, _, _, _⟩ := suggest_route_try_spec htry
    rcases h with hh | hh | hh
    · rw [hh] at h1; exact absurd h1 (by simp)
    · rw [hh] at h2; exact absurd h2 (by simp)
    · rw [hh n1 n2 h1 h2] at h3; exact absurd h3 (by simp)

/-- Witness for C6 on a disconnected network: both endpoints map to
nodes, no path joins them, and `suggest_route` returns `([], 0)`. -/
theorem claim_C6_unroutable_returns_empty_witness :
    (∀ n1 n2,
      nearest_node l1dist graphDisc (14.5547, 121.0244).2 (14.5547, 121.0244).1 = some n1 →
      nearest_node l1dist graphDisc (14.5600, 121.0200).2 (14.5600, 121.0200).1 = some n2 →
      shortest_path graphDisc n1 n2 = none) ∧
    suggest_route l1dist graphDisc (14.5547, 121.0244) (14.5600, 121.0200) = ([], 0) := by
  have hyp : ∀ n1 n2,
      nearest_node l1dist graphDisc (14.5547, 121.0244).2 (14.5547, 121.0244).1 = some n1 →
      nearest_node l1dist graphDisc (14.5600, 121.0200).2 (14.5600, 121.0200).1 = some n2 →
      shortest_path graphDisc n1 n2 = none := by
    intro n1 n2 hn1 hn2
    rw [show nearest_node l1dist graphDisc (14.5547, 121.0244).2 (14.5547, 121.0244).1 =
      some 1 by decide] at hn1
    rw [show nearest_node l1dist graphDisc (14.5600, 121.0200).2 (14.5600, 121.0200).1 =
      some 2 by decide] at hn2
    simp only [Option.some.injEq] at hn1 hn2
    rw [← hn1, ← hn2]
    decide
  exact ⟨hyp, claim_C6_unroutable_returns_empty l1dist graphDisc
    (14.5547, 121.0244) (14.5600, 121.0200) (Or.inr (Or.inr hyp))⟩

/-- C10: a successful `suggest_route` call returns the quotient
`total / 500` rounded to exactly one decimal place: ten times the ETA is
the (half-to-even) integer rounding of ten times the raw quotient, so the
ETA is the rounded value, not the raw quotient itself. -/
theorem claim_C10_eta_rounded_one_decimal (nd : ℚ × ℚ → ℚ × ℚ → ℚ)
    (g : Graph) (o dst : ℚ × ℚ) (coords : List (ℚ × ℚ)) (eta : ℚ)
    (h : suggest_route_try nd g o dst = some (coords, eta)) :
    ∃ nodes lens,
      route_edge_lengths g nodes = some lens ∧
      (∃ n1 n2, nearest_node nd g o.2 o.1 = some n1 ∧
        nearest_node nd g dst.2 dst.1 = some n2 ∧ shortest_path g n1 n2 = some nodes) ∧
      eta = round1 (lens.sum / 500) ∧
      eta * 10 = (roundHalfEven (lens.sum / 500 * 10) : ℚ) := by
  obtain ⟨n1, n2, nodes, lens, h1, h2, h3, _, h5, h6⟩ := suggest_route_try_spec h
  refine ⟨nodes, lens, h5, ⟨n1, n2, h1, h2, h3⟩, h6, ?_⟩
  rw [h6]
  unfold round1
  rw [div_mul_cancel₀]
  norm_num

/-- Witness for C10 on a single 333 m edge: the raw quotient is
`333 / 500 = 0.666`, and the returned ETA is `0.7`, not the raw value. -/
theorem claim_C10_eta_rounded_one_decimal_witness :
    suggest_route_try l1dist graph333 (14.5547, 121.0244) (14.5600, 121.0200) =
      some ([(14.5547, 121.0244), (14.5600, 121.0200)], 7 / 10) ∧
    (7 : ℚ) / 10 ≠ 333 / 500 ∧
    (∃ nodes lens,
      route_edge_lengths graph333 nodes = some lens ∧
      (∃ n1 n2,
        nearest_node l1dist graph333 (14.5547, 121.0244).2 (14.5547, 121.0244).1 = some n1 ∧
        nearest_node l1dist graph333 (14.5600, 121.0200).2 (14.5600, 121.0200).1 = some n2 ∧
        shortest_path graph333 n1 n2 = some nodes) ∧
      (7 : ℚ) / 10 = round1 (lens.sum / 500) ∧
      (7 : ℚ) / 10 * 10 = (roundHalfEven (lens.sum / 500 * 10) : ℚ)) :=
  ⟨by decide, by decide,
   claim_C10_eta_rounded_one_decimal l1dist graph333 (14.5547, 121.0244)
     (14.5600, 121.0200) [(14.5547, 121.0244), (14.5600, 121.0200)] (7 / 10) (by decide)⟩

/-- Witness for C4: in a store with the three seeded drivers (all ids
non-zero), an already-assigned job and a pending job, the amended
properties all hold. -/
theorem claim_C4_already_assigned_noop_witness :
    (∀ b ∈ drivers, b.id ≠ 0) ∧
    ((∀ (i : Nat) (d : Delivery),
        (⟨drivers, [jobAssigned, jobOut], geofences⟩ : SState).deliveries[i]? = some d →
        truthyNat d.assigned_driver = true →
        (assignAllState l1dist l1dist graphEmpty
          ⟨drivers, [jobAssigned, jobOut], geofences⟩).deliveries[i]? = some d) ∧
      (∀ l1 d l2,
        (⟨drivers, [jobAssigned, jobOut], geofences⟩ : SState).deliveries = l1 ++ d :: l2 →
        truthyNat d.assigned_driver = true →
        (assignAllState l1dist l1dist graphEmpty
          ⟨drivers, [jobAssigned, jobOut], geofences⟩).drivers =
          (assignAllState l1dist l1dist graphEmpty
            ⟨drivers, l1 ++ l2, geofences⟩).drivers) ∧
      assignAllState l1dist l1dist graphEmpty
          (assignAllState l1dist l1dist graphEmpty
            ⟨drivers, [jobAssigned, jobOut], geofences⟩) =
        assignAllState l1dist l1dist graphEmpty
          ⟨drivers, [jobAssigned, jobOut], geofences⟩) :=
  ⟨by decide, claim_C4_already_assigned_noop l1dist l1dist graphEmpty
    ⟨drivers, [jobAssigned, jobOut], geofences⟩ (by decide)⟩

/-- C7 (counterexample to the claim as stated): with two deliveries and
k = 3, `cluster_deliveries` fails with the `ValueError` that
`KMeans.fit` raises when n_samples < n_clusters; it does not return
three clusters with an empty third cluster — no `Except.ok` result at
all. -/
theorem claim_C7_counterexample :
    cluster_deliveries (fun _ _ => []) [jobB, jobOut] 3 =
      Except.error "n_samples should be >= n_clusters" := by
  rfl

/-- C7 (amended): for a job list with at least 2 jobs and k strictly
greater than the job count, `cluster_deliveries` raises the KMeans
sample-count validation error instead of returning k clusters whose
trailing clusters are empty. -/
theorem claim_C7_excess_k_errors (fitLabels : List (ℚ × ℚ) → Nat → List Nat)
    (ds : List Delivery) (k : Nat) (h2 : 2 ≤ ds.length) (hk : ds.length < k) :
    cluster_deliveries fitLabels ds k =
      Except.error "n_samples should be >= n_clusters" := by
  unfold cluster_deliveries kmeans_labels
  have hle : ¬ ds.length ≤ 1 := by omega
  have hcl : (ds.map fun d => (d.lat, d.lon)).length < k := by
    rw [List.length_map]; exact hk
  simp [hle, hcl, hk]

/-- Witness for the amended C7: two concrete deliveries and k = 3. -/
theorem claim_C7_excess_k_errors_witness :
    2 ≤ ([jobB, jobOut] : List Delivery).length ∧
    ([jobB, jobOut] : List Delivery).length < 3 ∧
    cluster_deliveries (fun _ _ => [0, 1]) [jobB, jobOut] 3 =
      Except.error "n_samples should be >= n_clusters" :=
  ⟨by decide, by decide,
   claim_C7_excess_k_errors (fun _ _ => [0, 1]) [jobB, jobOut] 3 (by decide) (by decide)⟩

/-- C8: the point-in-polygon test modelling shapely `contains` is strict
interior containment — a point on a polygon's boundary is never contained
in that polygon, and any geofence name reported by `check_geofence` comes
from a geofence that strictly contains the query point (the point is off
that geofence's boundary). -/
theorem claim_C8_boundary_is_outside (gfs : List Geofence) (lat lon : ℚ) :
    (∀ gf ∈ gfs, onBoundary gf.polygon (lat, lon) = true →
      polyContains gf.polygon (lat, lon) = false) ∧
    (∀ name, check_geofence gfs lat lon = some name →
      ∃ gf ∈ gfs, gf.name = name ∧ polyContains gf.polygon (lat, lon) = true ∧
        onBoundary gf.polygon (lat, lon) = false) := by
  constructor
  · intro gf _ hb
    simp [polyContains, hb]
  · intro name h
    induction gfs with
    | nil => simp [check_geofence] at h
    | cons gf rest ih =>
      by_cases hc : polyContains gf.polygon (lat, lon)
      · rw [check_geofence, if_pos hc] at h
        have hname : gf.name = name := by
          simpa using h
        have hnb : onBoundary gf.polygon (lat, lon) = false := by
          unfold polyContains at hc
          rcases Bool.and_eq_true .. |>.mp hc with ⟨hb, _⟩
          simpa using hb
        exact ⟨gf, List.mem_cons_self .., hname, hc, hnb⟩
      · rw [check_geofence, if_neg hc] at h
        obtain ⟨gf2, hmem, hrest⟩ := ih h
        exact ⟨gf2, List.mem_cons_of_mem _ hmem, hrest⟩

/-- Witness for C8: the point (14.555, 121.024) lies on the boundary of
the "No-Go Zone Makati" polygon, is not contained in it, and
`check_geofence` reports no match for it. -/
theorem claim_C8_boundary_is_outside_witness :
    onBoundary noGoZone.polygon (14.555, 121.024) = true ∧
    polyContains noGoZone.polygon (14.555, 121.024) = false ∧
    check_geofence geofences 14.555 121.024 = none :=
  ⟨by decide,
   (claim_C8_boundary_is_outside geofences 14.555 121.024).1 noGoZone
     (by decide) (by decide),
   by decide⟩

theorem add_delivery_ids_inv (rs : List DeliveryReq) :
    ∀ ds : List Delivery, ds.map (·.id) = List.range' 1 ds.length →
    (add_delivery ds rs).map (·.id) = List.range' 1 (ds.length + rs.length) := by
  induction rs with
  | nil =>
    intro ds h
    simpa [add_delivery] using h
  | cons r rs ih =>
    intro ds h
    have hstep : (add_one ds r).map (·.id) = List.range' 1 (ds.length + 1) := by
      unfold add_one
      rw [List.map_append, h]
      rw [show List.range' 1 (ds.length + 1) = List.range' 1 ds.length ++ [1 + 1 * ds.length]
        from List.range'_concat 1 ds.length]
      rw [show 1 + 1 * ds.length = ds.length + 1 by omega]
      rfl
    have hlen : (add_one ds r).length = ds.length + 1 := by simp [add_one]
    have hrec := ih (add_one ds r) (by rw [hstep, hlen])
    rw [hlen] at hrec
    rw [show add_delivery ds (r :: rs) = add_delivery (add_one ds r) rs from rfl, hrec]
    rw [show ds.length + 1 + rs.length = ds.length + (rs.length + 1) by omega]
    rfl

/-- C9: each intake step appends a delivery whose id equals the number of
deliveries in the store after insertion, and consequently intaking any
batch of n requests into an empty store yields ids exactly 1, …, n, all
distinct. -/
theorem claim_C9_ids_consecutive :
    (∀ (ds : List Delivery) (r : DeliveryReq),
      (add_one ds r).length = ds.length + 1 ∧
      ((add_one ds r).map (·.id)).getLast? = some (add_one ds r).length) ∧
    ∀ rs : List DeliveryReq,
      (add_delivery [] rs).map (·.id) = List.range' 1 rs.length ∧
      ((add_delivery [] rs).map (·.id)).Nodup := by
  constructor
  · intro ds r
    refine ⟨by simp [add_one], ?_⟩
    unfold add_one
    rw [List.map_append]
    simp
  · intro rs
    have h := add_delivery_ids_inv rs [] (by rfl)
    rw [show ([] : List Delivery).length + rs.length = rs.length by simp] at h
    exact ⟨h, h ▸ List.nodup_range' _ _⟩

end Thumbworx
